import Mathlib

/-
Verification of the DC circuit-analysis engine (value parser, net resolver,
MNA system builder, Gaussian-elimination solver, result extractor and the
verdict classifier) of the simulators repository.

The embedding translates src/services/simulator.ts and the verdict logic of
src/components/CircuitVisualizer.tsx into Lean.  JavaScript numbers are
modelled as rationals: all constants appearing in the code (330, 1e9, 0.01,
0.25, 1e-10, ...) are exactly representable, so on the inputs considered
here the rational pipeline computes the exact value the floating-point
pipeline approximates.  One deliberate difference is noted where it occurs:
rational division by zero yields 0 where JavaScript yields NaN/Infinity;
this is only reachable after the partial-pivoting guard has already failed,
and no theorem below depends on that case.
-/

namespace CircuitSim

/-! ## Data model (src/types.ts)

CircuitNode.type is an open string tag in the source ('source', 'resistor',
'led', 'ground', 'switch', plus many decorative kinds); it is kept as a
string.  The x/y placement coordinates are never read by the analysis code
and are kept as integers.  -/

structure CircuitNode where
  id : String
  type : String
  label : String
  x : Int
  y : Int
  value : Option String
deriving DecidableEq, Repr

structure CircuitConnection where
  id : String
  sourceId : String
  targetId : String
deriving DecidableEq, Repr

structure CircuitData where
  nodes : List CircuitNode
  connections : List CircuitConnection
deriving DecidableEq, Repr

/-! ## Value parser (simulator.ts, parseValue)

JavaScript parseFloat on an already lowercased, trimmed string: optional
sign, decimal digits, optional fractional part, optional exponent part
introduced by the character e.  It consumes the longest valid numeric
prefix and signals failure (NaN) when no digit is found; the literal
Infinity is case-sensitive in JavaScript and hence unreachable after
toLowerCase, so it is not modelled.  -/

def spanDigits (cs : List Char) : List Char × List Char :=
  (cs.takeWhile Char.isDigit, cs.dropWhile Char.isDigit)

def natOfDigits (ds : List Char) : Nat :=
  ds.foldl (fun a c => a * 10 + (c.toNat - 48)) 0

def parseExponent (cs : List Char) : Int :=
  match cs with
  | 'e' :: rest =>
    match rest with
    | '-' :: ds => let d := (spanDigits ds).1
                   if d.isEmpty then 0 else -(natOfDigits d : Int)
    | '+' :: ds => let d := (spanDigits ds).1
                   if d.isEmpty then 0 else (natOfDigits d : Int)
    | ds => let d := (spanDigits ds).1
            if d.isEmpty then 0 else (natOfDigits d : Int)
  | _ => 0

def parseFloatQ (cs : List Char) : Option ℚ :=
  let (sgn, cs1) : ℚ × List Char :=
    match cs with
    | '-' :: rest => (-1, rest)
    | '+' :: rest => (1, rest)
    | _ => (1, cs)
  let (ip, cs2) := spanDigits cs1
  let (fp, cs3) :=
    match cs2 with
    | '.' :: rest => spanDigits rest
    | _ => ([], cs2)
  if ip.isEmpty ∧ fp.isEmpty then none
  else
    let mant : ℚ := (natOfDigits ip : ℚ) + (natOfDigits fp : ℚ) / (10 : ℚ) ^ fp.length
    some (sgn * mant * (10 : ℚ) ^ parseExponent cs3)

/-- ASCII lowercase map, the effect of the JavaScript toLowerCase on the
ASCII component values this application produces. -/
def toLowerJS (s : String) : String :=
  ⟨s.data.map Char.toLower⟩

/-- Whitespace trim at both ends, the effect of the JavaScript trim. -/
def trimJS (s : String) : String :=
  ⟨((s.data.dropWhile Char.isWhitespace).reverse.dropWhile Char.isWhitespace).reverse⟩

/-- Decides whether the first character list is an initial segment of the second. -/
def leadsWith : List Char → List Char → Bool
  | [], _ => true
  | _ :: _, [] => false
  | a :: as, b :: bs => a = b ∧ leadsWith as bs

/-- Decides whether the first character list occurs contiguously inside the second. -/
def occursIn (sub : List Char) : List Char → Bool
  | [] => sub.isEmpty
  | b :: bs => leadsWith sub (b :: bs) ∨ occursIn sub bs

/-- Substring containment, mirroring the JavaScript String.prototype.includes. -/
def containsStr (s sub : String) : Bool :=
  occursIn sub.toList s.toList

/-- Mirrors parseValue of simulator.ts.  The guard on the undefined/empty
string, the lowercase/trim normalisation, the parseFloat extraction with
fallback 0, and the chain of early-returning multiplier checks are kept in
source order.  -/
def parseValue (valStr : Option String) : ℚ :=
  match valStr with
  | none => 0
  | some v =>
    if v = "" then 0
    else
      let str := trimJS (toLowerJS v)
      match parseFloatQ str.toList with
      | none => 0
      | some num =>
        if containsStr str "k" then num * 1000
        else if containsStr str "m" ∧ ¬ containsStr str "mhz" ∧ ¬ containsStr str "mv" then
          num * 1000000
        else if containsStr str "u" then num * (1 / 1000000)
        else if containsStr str "n" then num * (1 / 1000000000)
        else if containsStr str "p" then num * (1 / 1000000000000)
        else num

/-! ## Disjoint set (simulator.ts, class DisjointSet)

The source find performs path compression; compression never changes the
root of any element, and every value the algorithm observes is a root, so
the embedding uses the compression-free find with fuel bounded by the size
of the parent array (the parent pointers always form a forest, where chains
are shorter than the array).  -/

structure DisjointSet where
  parent : List Nat
deriving DecidableEq, Repr

def DisjointSet.makeSet (ds : DisjointSet) : DisjointSet × Nat :=
  (⟨ds.parent ++ [ds.parent.length]⟩, ds.parent.length)

def DisjointSet.findAux (p : List Nat) : Nat → Nat → Nat
  | 0, i => i
  | fuel + 1, i =>
    let pi := p.getD i i
    if pi = i then i else DisjointSet.findAux p fuel pi

def DisjointSet.find (ds : DisjointSet) (i : Nat) : Nat :=
  DisjointSet.findAux ds.parent ds.parent.length i

def DisjointSet.union (ds : DisjointSet) (i j : Nat) : DisjointSet :=
  let rootI := ds.find i
  let rootJ := ds.find j
  if rootI ≠ rootJ then ⟨ds.parent.set rootI rootJ⟩ else ds

/-! ## JavaScript Map / Set modelled as insertion-ordered association lists

Map.set overwrites in place (iteration keeps the first-insertion position);
Set.add appends when the element is new.  -/

def mapSet {α : Type} (m : List (String × α)) (k : String) (v : α) : List (String × α) :=
  if (m.find? (fun p => p.1 = k)).isSome then
    m.map (fun p => if p.1 = k then (k, v) else p)
  else m ++ [(k, v)]

def mapGet {α : Type} (m : List (String × α)) (k : String) : Option α :=
  (m.find? (fun p => p.1 = k)).map (fun p => p.2)

def setAdd (s : List String) (x : String) : List String :=
  if x ∈ s then s else s ++ [x]

/-! ## Net resolver (simulator.ts, runAdvancedSimulation steps 1-3)

The first nets/nodeToNetIndex computation of the source (its lines 85-153)
is dead code: the G/I arrays it sizes are shadowed by the matrix built from
the electricalNets disjoint set, and nothing of it reaches the returned
result, so it is not embedded.  -/

abbrev PinMap := List (String × (Nat × Nat))

/-- Allocates the two pins of one component and shorts them when the
component is a ground (simulator.ts step 1 of the electrical-net build). -/
def initStep (acc : DisjointSet × PinMap) (node : CircuitNode) : DisjointSet × PinMap :=
  let (ds1, n1) := acc.1.makeSet
  let (ds2, n2) := ds1.makeSet
  let ds3 := if node.type = "ground" then ds2.union n1 n2 else ds2
  (ds3, mapSet acc.2 node.id (n1, n2))

/-- Allocates the two pins of every component. -/
def initPins (nodes : List CircuitNode) : DisjointSet × PinMap :=
  nodes.foldl initStep (⟨[]⟩, [])

/-- Processes one wire (simulator.ts step 2).  The source asserts with the
non-null operator that both endpoints name existing components; a wire with
a dangling endpoint would throw there, so the embedding leaves the state
unchanged in that unreachable case and the theorems below assume
well-formed wires where it matters.  -/
def wireStep (nodes : List CircuitNode) (pins : PinMap) (ds : DisjointSet)
    (conn : CircuitConnection) : DisjointSet :=
  match nodes.find? (fun n => n.id = conn.sourceId),
        nodes.find? (fun n => n.id = conn.targetId) with
  | some srcNode, some tgtNode =>
    match mapGet pins srcNode.id, mapGet pins tgtNode.id with
    | some srcPins, some tgtPins =>
      let srcPinToUse :=
        if srcNode.type = "source" then srcPins.1
        else if srcNode.type ≠ "ground" then srcPins.2
        else srcPins.1
      let tgtPinToUse := tgtPins.1
      ds.union srcPinToUse tgtPinToUse
    | _, _ => ds
  | _, _ => ds

/-- Merges all ground components into one net and returns the global ground
reference (simulator.ts step 3), none standing for the sentinel -1. -/
def resolveGround (nodes : List CircuitNode) (pins : PinMap) (ds : DisjointSet) :
    Option Nat × DisjointSet :=
  let groundNodes := nodes.filter (fun n => n.type = "ground")
  match groundNodes with
  | [] =>
    match nodes.find? (fun n => n.type = "source") with
    | some firstSource =>
      let p := (mapGet pins firstSource.id).getD (0, 0)
      (some (ds.find p.2), ds)
    | none => (none, ds)
  | g0 :: rest =>
    let g0net := ds.find ((mapGet pins g0.id).getD (0, 0)).1
    let ds' := rest.foldl
      (fun d gi => d.union g0net (d.find ((mapGet pins gi.id).getD (0, 0)).1)) ds
    (some (ds'.find g0net), ds')

/-- Runs the full net resolution: pin allocation, wire merging, ground
merging.  Returns the final disjoint set, the pin map and the ground net. -/
def resolveNets (data : CircuitData) : DisjointSet × PinMap × Option Nat :=
  let (ds0, pins) := initPins data.nodes
  let ds1 := data.connections.foldl (wireStep data.nodes pins) ds0
  let (gg, ds2) := resolveGround data.nodes pins ds1
  (ds2, pins, gg)

/-! ## System builder (simulator.ts, runAdvancedSimulation steps 4-5) -/

/-- Insertion-ordered list of the distinct net representatives touched by
any component pin (the uniqueNetIds Set of the source). -/
def uniqueNetIds (nodes : List CircuitNode) (pins : PinMap) (ds : DisjointSet) : List Nat :=
  nodes.foldl
    (fun acc n =>
      let p := (mapGet pins n.id).getD (0, 0)
      let r1 := ds.find p.1
      let r2 := ds.find p.2
      let acc1 := if r1 ∈ acc then acc else acc ++ [r1]
      if r2 ∈ acc1 then acc1 else acc1 ++ [r2]) []

/-- Assigns 0-based matrix indices to the non-ground nets in insertion
order (netToMatrixMap of the source); also returns the running count. -/
def buildNetMap (uniq : List Nat) (gg : Option Nat) : List (Nat × Nat) × Nat :=
  uniq.foldl
    (fun acc netId =>
      if some netId ≠ gg then (acc.1 ++ [(netId, acc.2)], acc.2 + 1) else acc)
    ([], 0)

/-- Equivalent fixed resistance of a resistive element, as stamped by the
source (and recomputed identically in its extraction phase; the two dead
initial defaults 1e9 and 1000 of the source are never read inside the
resistive branch). -/
def resistanceOf (node : CircuitNode) : ℚ :=
  if node.type = "resistor" then
    let v := parseValue node.value
    if v = 0 then 1000 else v
  else if node.type = "led" then 50
  else if node.type = "switch" then
    if node.value = some "closed" then 1 / 100 else 1000000000
  else 1000000000

/-- Source voltage with the falsy-default of the source: parseValue v or 9. -/
def voltageOf (node : CircuitNode) : ℚ :=
  let v := parseValue node.value
  if v = 0 then 9 else v

/-- Matrix entry read with the out-of-bounds default 0. -/
def getE (m : List (List ℚ)) (i j : Nat) : ℚ :=
  (m.getD i []).getD j 0

/-- Matrix entry write; out of bounds writes are dropped (they are
unreachable on the index sets the stamps produce). -/
def setE (m : List (List ℚ)) (i j : Nat) (v : ℚ) : List (List ℚ) :=
  m.set i ((m.getD i []).set j v)

def addE (m : List (List ℚ)) (i j : Nat) (v : ℚ) : List (List ℚ) :=
  setE m i j (getE m i j + v)

/-- Conductance stamp of a resistive element: g on each non-ground
diagonal, -g on the symmetric off-diagonal pair when both sides are
non-ground (none stands for the ground sentinel -1 of the source). -/
def stampResistive (g : ℚ) (idx1 idx2 : Option Nat) (matrix : List (List ℚ)) :
    List (List ℚ) :=
  let m1 := match idx1 with | some i => addE matrix i i g | none => matrix
  let m2 := match idx2 with | some i => addE m1 i i g | none => m1
  match idx1, idx2 with
  | some i, some j => addE (addE m2 i j (-g)) j i (-g)
  | _, _ => m2

/-- Current-variable stamp of a voltage source: the symmetric plus-one pair
at p1 and minus-one pair at p2, each skipped on the ground side. -/
def stampSource (sourceIdx : Nat) (idx1 idx2 : Option Nat) (matrix : List (List ℚ)) :
    List (List ℚ) :=
  let m1 := match idx1 with
    | some i => addE (addE matrix i sourceIdx 1) sourceIdx i 1
    | none => matrix
  match idx2 with
  | some i => addE (addE m1 i sourceIdx (-1)) sourceIdx i (-1)
  | none => m1

/-- Stamps one component into the MNA matrix and right-hand side
(simulator.ts step 5).  Kinds outside source/ground/resistor/led/switch
fall through and contribute nothing. -/
def stampNode (gg : Option Nat) (n2m : List (Nat × Nat)) (sourceStartIndex : Nat)
    (sources : List CircuitNode) (pins : PinMap) (ds : DisjointSet)
    (acc : List (List ℚ) × List ℚ) (node : CircuitNode) : List (List ℚ) × List ℚ :=
  let (matrix, rhs) := acc
  let p := (mapGet pins node.id).getD (0, 0)
  let net1 := ds.find p.1
  let net2 := ds.find p.2
  let idx1 : Option Nat := if some net1 = gg then none else n2m.lookup net1
  let idx2 : Option Nat := if some net2 = gg then none else n2m.lookup net2
  if node.type = "resistor" ∨ node.type = "led" ∨ node.type = "switch" then
    (stampResistive (1 / resistanceOf node) idx1 idx2 matrix, rhs)
  else if node.type = "source" then
    let sourceIdx := sourceStartIndex + sources.indexOf node
    (stampSource sourceIdx idx1 idx2 matrix, rhs.set sourceIdx (voltageOf node))
  else (matrix, rhs)

/-! ## Linear solver (simulator.ts, solveLinearSystem)

Gaussian elimination with partial pivoting.  The in-place mutation of the
source is rendered as a fold transforming the matrix/vector pair; the
source swaps only the row tails from the pivot column on, and the
elimination updates columns from the pivot column on, exactly as embedded
here.  Rational division by zero yields 0 where the floating-point source
would produce NaN or Infinity; that case arises only when the pivot chosen
by partial pivoting is exactly zero, where the sub-threshold guard of the
back substitution is what determines the output on real inputs.  -/

/-- Index of the row with the largest absolute entry in column i, scanning
rows i+1 .. n-1 with a strict comparison, starting from row i. -/
def findPivot (A : List (List ℚ)) (i n : Nat) : Nat :=
  ((List.range (n - (i + 1))).foldl
    (fun (acc : ℚ × Nat) d =>
      let k := i + 1 + d
      if |getE A k i| > acc.1 then (|getE A k i|, k) else acc)
    (|getE A i i|, i)).2

/-- Swaps the entries of rows r1 and r2 in columns i .. n-1. -/
def swapRowTails (A : List (List ℚ)) (r1 r2 i n : Nat) : List (List ℚ) :=
  (List.range (n - i)).foldl
    (fun m d =>
      let k := i + d
      let tmp := getE m r1 k
      setE (setE m r1 k (getE m r2 k)) r2 k tmp) A

/-- One outer iteration of the elimination: pivot search, row swap, and
zeroing of column i in all rows below. -/
def elimStep (n : Nat) (AB : List (List ℚ) × List ℚ) (i : Nat) : List (List ℚ) × List ℚ :=
  let A := AB.1
  let B := AB.2
  let maxRow := findPivot A i n
  let A1 := swapRowTails A maxRow i i n
  let tmp := B.getD maxRow 0
  let B1 := (B.set maxRow (B.getD i 0)).set i tmp
  (List.range (n - (i + 1))).foldl
    (fun ab d =>
      let k := i + 1 + d
      let c := -(getE ab.1 k i) / getE ab.1 i i
      let A' := (List.range (n - i)).foldl
        (fun m d2 =>
          let j := i + d2
          if i = j then setE m k j 0
          else setE m k j (getE m k j + c * getE m i j)) ab.1
      (A', ab.2.set k (ab.2.getD k 0 + c * ab.2.getD i 0)))
    (A1, B1)

def forwardEliminate (A : List (List ℚ)) (B : List ℚ) : List (List ℚ) × List ℚ :=
  (List.range B.length).foldl (elimStep B.length) (A, B)

/-- One iteration of the back substitution, solving for unknown n - 1 - d;
an unknown whose pivot magnitude is below 1e-10 is assigned exactly 0. -/
def backStep (A : List (List ℚ)) (B : List ℚ) (n : Nat) (x : List ℚ) (d : Nat) : List ℚ :=
  let i := n - 1 - d
  let sum := (List.range (n - (i + 1))).foldl
    (fun s d2 => s + getE A i (i + 1 + d2) * x.getD (i + 1 + d2) 0) 0
  if |getE A i i| < 1 / 10000000000 then x.set i 0
  else x.set i ((B.getD i 0 - sum) / getE A i i)

/-- Back substitution on the upper-triangular system. -/
def backSubstitute (A : List (List ℚ)) (B : List ℚ) : List ℚ :=
  (List.range B.length).foldl (backStep A B B.length) (List.replicate B.length 0)

def solveLinearSystem (A : List (List ℚ)) (B : List ℚ) : List ℚ :=
  let AB := forwardEliminate A B
  backSubstitute AB.1 AB.2

/-! ## Result extraction (simulator.ts, runAdvancedSimulation steps 6-7)

The try/catch around the solver call of the source is unrepresentable and
unnecessary here: the embedded solver is a total function, mirroring the
fact that no statement of solveLinearSystem can throw (JavaScript array
reads out of bounds yield undefined, and arithmetic on numbers never
throws), so the catch branch producing an all-zero vector is dead.  -/

structure SimulationResult where
  nodeVoltages : List (String × ℚ)
  componentCurrents : List (String × ℚ)
  componentPower : List (String × ℚ)
  isPowered : List String
deriving DecidableEq, Repr

/-- Named bundle of the intermediate analysis state shared by the system
build and the result extraction. -/
structure SystemParts where
  ds : DisjointSet
  pins : PinMap
  gg : Option Nat
  n2m : List (Nat × Nat)
  netCount : Nat
  sources : List CircuitNode
deriving Repr

/-- Resolved nets, matrix index assignment and source list of a circuit. -/
def systemOf (data : CircuitData) : SystemParts :=
  let r := resolveNets data
  let uniq := uniqueNetIds data.nodes r.2.1 r.1
  let nm := buildNetMap uniq r.2.2
  ⟨r.1, r.2.1, r.2.2, nm.1, nm.2, data.nodes.filter (fun n => n.type = "source")⟩

/-- Assembled MNA matrix and right-hand side of a circuit. -/
def buildSystem (data : CircuitData) : List (List ℚ) × List ℚ :=
  let sp := systemOf data
  let matrixSize := sp.netCount + sp.sources.length
  let m0 := List.replicate matrixSize (List.replicate matrixSize (0 : ℚ))
  let rhs0 := List.replicate matrixSize (0 : ℚ)
  data.nodes.foldl (stampNode sp.gg sp.n2m sp.netCount sp.sources sp.pins sp.ds) (m0, rhs0)

/-- Voltage of a net relative to the solution vector: 0 for the ground
reference, solved value (with the falsy/out-of-bounds fallback 0 of the
source) otherwise. -/
def netVoltage (gg : Option Nat) (n2m : List (Nat × Nat)) (solution : List ℚ)
    (net : Nat) : ℚ :=
  if some net = gg then 0
  else match n2m.lookup net with
    | some ix => solution.getD ix 0
    | none => 0

/-- Per-component current: Ohm's law over the stamped resistance for the
resistive kinds, the solved branch-current unknown for a source, 0 for
ground and unmodeled kinds. -/
def extractCurrent (netCount : Nat) (sources : List CircuitNode) (solution : List ℚ)
    (v1 v2 : ℚ) (node : CircuitNode) : ℚ :=
  if node.type = "resistor" ∨ node.type = "led" ∨ node.type = "switch" then
    (v1 - v2) / resistanceOf node
  else if node.type = "source" then
    solution.getD (netCount + sources.indexOf node) 0
  else 0

/-- One iteration of the extraction loop of runAdvancedSimulation. -/
def extractStep (ds : DisjointSet) (pins : PinMap) (gg : Option Nat)
    (n2m : List (Nat × Nat)) (netCount : Nat) (sources : List CircuitNode)
    (solution : List ℚ) (res : SimulationResult) (node : CircuitNode) : SimulationResult :=
  let p := (mapGet pins node.id).getD (0, 0)
  let v1 := netVoltage gg n2m solution (ds.find p.1)
  let v2 := netVoltage gg n2m solution (ds.find p.2)
  let current := extractCurrent netCount sources solution v1 v2 node
  let powered0 :=
    if |v1| > 1 / 10 ∨ |v2| > 1 / 10 then setAdd res.isPowered node.id
    else res.isPowered
  let powered1 := if node.type = "source" then setAdd powered0 node.id else powered0
  ⟨mapSet res.nodeVoltages node.id v1,
   mapSet res.componentCurrents node.id current,
   mapSet res.componentPower node.id |current * (v1 - v2)|,
   powered1⟩

/-- Full pipeline of runAdvancedSimulation. -/
def runAdvancedSimulation (data : CircuitData) : SimulationResult :=
  let sp := systemOf data
  let sys := buildSystem data
  let solution := solveLinearSystem sys.1 sys.2
  data.nodes.foldl
    (extractStep sp.ds sp.pins sp.gg sp.n2m sp.netCount sp.sources solution)
    ⟨[], [], [], []⟩

/-! ## Verdict classifier (src/components/CircuitVisualizer.tsx, the
verdict useEffect, for an active simulation with a result present)

The states are danger, success, neutral; the implicated component's id and
label are carried in place of the formatted message strings, which only
interpolate the label and a rounded measurement.  The loops with early
return are find-first scans: an entry whose power exceeds the ceiling but
whose component is missing or excluded does not stop the scan.  -/

inductive Verdict where
  | danger (id label : String)
  | success (id label : String)
  | neutral
deriving DecidableEq, Repr

/-- Maximum safe power, MAX_SAFE_POWER = 0.25 W. -/
def maxSafePower : ℚ := 1 / 4

/-- Predicate of the failure scan: power above the ceiling and the
component exists with a kind other than source, ground and switch. -/
def overheats (nodes : List CircuitNode) (e : String × ℚ) : Bool :=
  decide (e.2 > maxSafePower) &&
    match nodes.find? (fun n => n.id = e.1) with
    | some n => n.type ≠ "source" && n.type ≠ "ground" && n.type ≠ "switch"
    | none => false

/-- Predicate of the success scan: the component is an led carrying more
than 5 mA in magnitude. -/
def ledActive (nodes : List CircuitNode) (e : String × ℚ) : Bool :=
  match nodes.find? (fun n => n.id = e.1) with
  | some n => n.type = "led" && decide (|e.2| > 5 / 1000)
  | none => false

def computeVerdict (nodes : List CircuitNode) (res : SimulationResult) : Verdict :=
  match res.componentPower.find? (overheats nodes) with
  | some e =>
    match nodes.find? (fun n => n.id = e.1) with
    | some n => .danger n.id n.label
    | none => .neutral
  | none =>
    match res.componentCurrents.find? (ledActive nodes) with
    | some e =>
      match nodes.find? (fun n => n.id = e.1) with
      | some n => .success n.id n.label
      | none => .neutral
    | none => .neutral

/-! ## Reference definitions written from the specification wording

These are compared against the code-derived definitions above; they are not
used inside the pipeline.  -/

/-- Magnitude multiplier table as the specification words it: first
matching rule in source order, exactly one multiplier. -/
def specMultiplier (str : String) : ℚ :=
  if containsStr str "k" then 1000
  else if containsStr str "m" ∧ ¬ containsStr str "mhz" ∧ ¬ containsStr str "mv" then 1000000
  else if containsStr str "u" then 1 / 1000000
  else if containsStr str "n" then 1 / 1000000000
  else if containsStr str "p" then 1 / 1000000000000
  else 1

/-- Pin of the wire's source endpoint as the specification words it: p1 for
a voltage source (positive terminal), p1 for a ground, p2 otherwise. -/
def claimSrcPin (a : CircuitNode) (pa : Nat × Nat) : Nat :=
  if a.type = "source" then pa.1
  else if a.type = "ground" then pa.1
  else pa.2

/-! ## Concrete circuits of the testable properties -/

/-- Series circuit of the first testable property: 9 V source, 330 ohm
resistor, led, ground, wired source to resistor to led to ground. -/
def ledSeriesCircuit : CircuitData :=
  ⟨[⟨"n1", "source", "9V Battery", 100, 200, some "9V"⟩,
    ⟨"n2", "resistor", "R1", 300, 200, some "330"⟩,
    ⟨"n3", "led", "LED1", 500, 200, some "Red"⟩,
    ⟨"n4", "ground", "GND", 700, 200, none⟩],
   [⟨"e1", "n1", "n2"⟩, ⟨"e2", "n2", "n3"⟩, ⟨"e3", "n3", "n4"⟩]⟩

/-- Voltage divider of the second testable property: 10 V source and two
10 kilo-ohm resistors in series to ground. -/
def dividerCircuit : CircuitData :=
  ⟨[⟨"n1", "source", "V1", 100, 200, some "10"⟩,
    ⟨"n2", "resistor", "R1", 300, 200, some "10k"⟩,
    ⟨"n3", "resistor", "R2", 500, 200, some "10k"⟩,
    ⟨"n4", "ground", "GND", 700, 200, none⟩],
   [⟨"e1", "n1", "n2"⟩, ⟨"e2", "n2", "n3"⟩, ⟨"e3", "n3", "n4"⟩]⟩

/-! ## Claim theorems -/

/-- Claim C1, evaluation of the code at the claimed input: on the series
circuit source to 330 ohm resistor to led to ground, runAdvancedSimulation
reports current exactly 0 through every component (the source's negative
terminal net is left floating, so its KCL row forces the branch current to
zero), the led's power is 0, and the classifier returns the neutral
verdict, not the success verdict the claim expects. -/
theorem led_series_preset_zero_output :
    (runAdvancedSimulation ledSeriesCircuit).componentCurrents =
      [("n1", 0), ("n2", 0), ("n3", 0), ("n4", 0)] ∧
    mapGet (runAdvancedSimulation ledSeriesCircuit).componentPower "n3" = some 0 ∧
    computeVerdict ledSeriesCircuit.nodes (runAdvancedSimulation ledSeriesCircuit) =
      .neutral := by
  refine ⟨?_, ?_, ?_⟩ <;> with_unfolding_all decide

/-- Claim C2, evaluation of the code at the claimed input: on the 10 V
divider with two 10 kilo-ohm resistors, every reported node voltage is
exactly 0 - in particular the voltage of the net between the two resistors
(reported as the p1 voltage of the second resistor) is 0, not the claimed
5 V: with the explicit ground present the source's negative net floats and
its KCL row forces zero source current, collapsing all non-ground voltages
referenced by the source row to the solution of an exactly singular-free
system whose node voltages vanish. -/
theorem divider_midpoint_voltage_zero :
    (runAdvancedSimulation dividerCircuit).nodeVoltages =
      [("n1", 0), ("n2", 0), ("n3", 0), ("n4", 0)] ∧
    mapGet (runAdvancedSimulation dividerCircuit).nodeVoltages "n3" = some 0 := by
  refine ⟨?_, ?_⟩ <;> with_unfolding_all decide

/-- Claim C9: parseValue lowercases and trims its input, extracts the
leading decimal numeral with fallback 0, and multiplies by exactly one
magnitude multiplier, the first matching rule in the order k, m (mega,
unless mhz or mv occurs), u, n, p, with default 1; the undefined value
parses to 0. -/
theorem parseValue_leading_numeral_first_multiplier :
    parseValue none = 0 ∧
    ∀ v : String,
      parseValue (some v) =
        ((parseFloatQ (trimJS (toLowerJS v)).toList).getD 0) *
          specMultiplier (trimJS (toLowerJS v)) := by
  constructor
  · rfl
  intro v
  unfold parseValue specMultiplier
  by_cases hv : v = ""
  · subst hv
    simp [trimJS, toLowerJS, parseFloatQ, spanDigits]
  · simp only [if_neg hv]
    cases h : parseFloatQ (trimJS (toLowerJS v)).toList with
    | none => simp
    | some num =>
      simp only [Option.getD_some]
      split_ifs <;> ring

/-- Claim C4: for every wire whose endpoints resolve to components a and b,
net resolution performs exactly one union, of the pin the specification
names for a (p1 for a voltage source, p1 for a ground, p2 for any other
kind) with b's p1. -/
theorem wire_pin_selection (nodes : List CircuitNode) (pins : PinMap) (ds : DisjointSet)
    (conn : CircuitConnection) (a b : CircuitNode) (pa pb : Nat × Nat)
    (ha : nodes.find? (fun n => n.id = conn.sourceId) = some a)
    (hb : nodes.find? (fun n => n.id = conn.targetId) = some b)
    (hpa : mapGet pins a.id = some pa) (hpb : mapGet pins b.id = some pb) :
    wireStep nodes pins ds conn = ds.union (claimSrcPin a pa) pb.1 := by
  unfold wireStep claimSrcPin
  rw [ha, hb]
  dsimp only
  rw [hpa, hpb]
  dsimp only
  by_cases hs : a.type = "source"
  · simp [hs]
  · by_cases hg : a.type = "ground" <;> simp [hs, hg]

/-- Witness for C4 at the first wire of the led series circuit: the source
endpoint is the voltage source n1, whose p1 (pin 0) is unioned with the
resistor's p1 (pin 2). -/
theorem wire_pin_selection_witness :
    wireStep ledSeriesCircuit.nodes (initPins ledSeriesCircuit.nodes).2
        (initPins ledSeriesCircuit.nodes).1 ⟨"e1", "n1", "n2"⟩ =
      (initPins ledSeriesCircuit.nodes).1.union
        (claimSrcPin ⟨"n1", "source", "9V Battery", 100, 200, some "9V"⟩ (0, 1)) 2 :=
  wire_pin_selection ledSeriesCircuit.nodes (initPins ledSeriesCircuit.nodes).2
    (initPins ledSeriesCircuit.nodes).1 ⟨"e1", "n1", "n2"⟩
    ⟨"n1", "source", "9V Battery", 100, 200, some "9V"⟩
    ⟨"n2", "resistor", "R1", 300, 200, some "330"⟩ (0, 1) (2, 3)
    (by decide) (by decide) (by decide) (by decide)

/-! ## Association-list map facts -/

theorem mapGet_cons {α : Type} (p : String × α) (rest : List (String × α)) (k : String) :
    mapGet (p :: rest) k = if p.1 = k then some p.2 else mapGet rest k := by
  unfold mapGet
  by_cases hp : p.1 = k
  · rw [List.find?_cons_of_pos _ (by simpa using hp), if_pos hp]
    rfl
  · rw [List.find?_cons_of_neg _ (by simpa using hp), if_neg hp]

theorem mapGet_map_setfn {α : Type} (m : List (String × α)) (k : String) (v : α)
    (hk : (m.find? (fun q => q.1 = k)).isSome) :
    mapGet (m.map (fun p => if p.1 = k then (k, v) else p)) k = some v := by
  induction m with
  | nil => simp at hk
  | cons p rest ih =>
    by_cases hp : p.1 = k
    · rw [List.map_cons, if_pos hp, mapGet_cons]
      simp
    · have hr : (rest.find? (fun q => q.1 = k)).isSome := by
        rw [List.find?_cons_of_neg _ (by simpa using hp)] at hk
        exact hk
      rw [List.map_cons, if_neg hp, mapGet_cons, if_neg hp]
      exact ih hr

theorem mapGet_map_setfn_ne {α : Type} (m : List (String × α)) (k k' : String) (v : α)
    (h : k' ≠ k) :
    mapGet (m.map (fun p => if p.1 = k then (k, v) else p)) k' = mapGet m k' := by
  induction m with
  | nil => rfl
  | cons p rest ih =>
    by_cases hp : p.1 = k
    · rw [List.map_cons, if_pos hp, mapGet_cons, mapGet_cons,
        if_neg (show ¬((k, v).1 = k') from fun hh => h hh.symm),
        if_neg (show ¬(p.1 = k') from fun hh => h (hp ▸ hh).symm)]
      exact ih
    · rw [List.map_cons, if_neg hp, mapGet_cons, mapGet_cons]
      by_cases hp' : p.1 = k'
      · rw [if_pos hp', if_pos hp']
      · rw [if_neg hp', if_neg hp']
        exact ih

theorem mapGet_mapSet_self {α : Type} (m : List (String × α)) (k : String) (v : α) :
    mapGet (mapSet m k v) k = some v := by
  unfold mapSet
  split
  · exact mapGet_map_setfn m k v (by assumption)
  · rename_i hns
    have hnone : m.find? (fun q => q.1 = k) = none := Option.not_isSome_iff_eq_none.mp hns
    unfold mapGet
    rw [List.find?_append, hnone, Option.none_or, List.find?_cons_of_pos _ (by simp)]
    rfl

theorem mapGet_mapSet_ne {α : Type} (m : List (String × α)) (k k' : String) (v : α)
    (h : k' ≠ k) : mapGet (mapSet m k v) k' = mapGet m k' := by
  unfold mapSet
  split
  · exact mapGet_map_setfn_ne m k k' v h
  · unfold mapGet
    rw [List.find?_append]
    have hnil : List.find? (fun q => q.1 = k') [(k, v)] = none := by
      rw [List.find?_cons_of_neg _ (by simpa using fun hh : k = k' => h hh.symm)]
      rfl
    rw [hnil, Option.or_none]

theorem mem_mapSet {α : Type} (m : List (String × α)) (k : String) (v : α)
    (e : String × α) (he : e ∈ mapSet m k v) : e = (k, v) ∨ e ∈ m := by
  unfold mapSet at he
  split at he
  · obtain ⟨p, hp, hfp⟩ := List.mem_map.mp he
    by_cases hpk : p.1 = k
    · left; simp [hpk] at hfp; exact hfp.symm
    · right; simp [hpk] at hfp; exact hfp ▸ hp
  · rcases List.mem_append.mp he with h | h
    · exact Or.inr h
    · left; simpa using h

theorem mapGet_mem {α : Type} (m : List (String × α)) (k : String) (v : α)
    (h : mapGet m k = some v) : (k, v) ∈ m := by
  unfold mapGet at h
  obtain ⟨e, he, hev⟩ := Option.map_eq_some'.mp h
  have hk : e.1 = k := by simpa using List.find?_some he
  have hm := List.mem_of_find?_eq_some he
  have : e = (k, v) := Prod.ext hk hev
  exact this ▸ hm

/-! ## Claim C5: overheat precedence in the verdict classifier -/

/-- Claim C5: whenever the failure scan finds an entry (power above 0.25 W
on an existing component that is not a source, ground or switch), the
classifier reports the danger verdict naming the first such component,
whatever the current map contains - in particular even when an led carries
more than 5 mA - because the failure scan entirely precedes the success
scan; and components of kind source, ground or switch never satisfy the
overheat predicate. -/
theorem overheat_precedence :
    (∀ (nodes : List CircuitNode) (nv cc cp : List (String × ℚ)) (pw : List String)
        (e : String × ℚ) (n : CircuitNode),
        cp.find? (overheats nodes) = some e →
        nodes.find? (fun x => x.id = e.1) = some n →
        computeVerdict nodes ⟨nv, cc, cp, pw⟩ = .danger n.id n.label) ∧
    (∀ (nodes : List CircuitNode) (e : String × ℚ) (n : CircuitNode),
        nodes.find? (fun x => x.id = e.1) = some n →
        (n.type = "source" ∨ n.type = "ground" ∨ n.type = "switch") →
        overheats nodes e = false) := by
  constructor
  · intro nodes nv cc cp pw e n h1 h2
    unfold computeVerdict
    rw [show (SimulationResult.mk nv cc cp pw).componentPower = cp from rfl, h1]
    dsimp only
    rw [h2]
  · intro nodes e n hf ht
    unfold overheats
    rw [hf]
    rcases ht with h | h | h <;> simp [h]

/-- Witness for C5: a concrete result where a 1 W resistor coexists with an
led carrying 1 A (far above 5 mA); the verdict is the danger verdict naming
the resistor, not the success verdict. -/
theorem overheat_precedence_witness :
    computeVerdict
        [⟨"r1", "resistor", "R1", 0, 0, some "1"⟩, ⟨"l1", "led", "L1", 0, 0, none⟩]
        ⟨[], [("l1", 1)], [("r1", 1)], []⟩ = .danger "r1" "R1" :=
  overheat_precedence.1
    [⟨"r1", "resistor", "R1", 0, 0, some "1"⟩, ⟨"l1", "led", "L1", 0, 0, none⟩]
    [] [("l1", 1)] [("r1", 1)] [] ("r1", 1) ⟨"r1", "resistor", "R1", 0, 0, some "1"⟩
    (by with_unfolding_all decide) (by decide)

/-! ## Claims C7 and C8: extraction-phase facts -/

theorem extract_fold_power_nonneg (l : List CircuitNode) (ds : DisjointSet) (pins : PinMap)
    (gg : Option Nat) (n2m : List (Nat × Nat)) (nc : Nat) (srcs : List CircuitNode)
    (sol : List ℚ) (init : SimulationResult)
    (h0 : ∀ e ∈ init.componentPower, 0 ≤ e.2) :
    ∀ e ∈ (l.foldl (extractStep ds pins gg n2m nc srcs sol) init).componentPower, 0 ≤ e.2 := by
  induction l generalizing init with
  | nil => exact h0
  | cons n rest ih =>
    rw [List.foldl_cons]
    refine ih _ ?_
    intro e he
    rcases mem_mapSet _ _ _ _ he with hkv | hm
    · rw [hkv]
      exact abs_nonneg _
    · exact h0 e hm

/-- Claim C7: every value stored in the componentPower map of a simulation
result is non-negative (it is an absolute value by construction), for every
input circuit and component id. -/
theorem component_power_nonneg (data : CircuitData) (k : String) (p : ℚ)
    (h : mapGet (runAdvancedSimulation data).componentPower k = some p) : 0 ≤ p := by
  have hm := mapGet_mem _ _ _ h
  exact extract_fold_power_nonneg data.nodes _ _ _ _ _ _ _ ⟨[], [], [], []⟩
    (by intro e he; cases he) (k, p) hm

/-- Witness for C7 at the led of the series preset circuit. -/
theorem component_power_nonneg_witness :
    mapGet (runAdvancedSimulation ledSeriesCircuit).componentPower "n3" = some 0 ∧
      (0 : ℚ) ≤ 0 :=
  ⟨by with_unfolding_all decide,
   component_power_nonneg ledSeriesCircuit "n3" 0 (by with_unfolding_all decide)⟩

theorem extract_fold_absent (l : List CircuitNode) (ds : DisjointSet) (pins : PinMap)
    (gg : Option Nat) (n2m : List (Nat × Nat)) (nc : Nat) (srcs : List CircuitNode)
    (sol : List ℚ) (init : SimulationResult) (k : String)
    (hk : k ∉ l.map (fun n => n.id)) :
    mapGet (l.foldl (extractStep ds pins gg n2m nc srcs sol) init).componentCurrents k =
      mapGet init.componentCurrents k := by
  induction l generalizing init with
  | nil => rfl
  | cons n rest ih =>
    rw [List.foldl_cons]
    have hk1 : k ≠ n.id := by
      intro hh
      exact hk (by rw [List.map_cons, hh]; exact List.mem_cons_self _ _)
    have hk2 : k ∉ rest.map (fun n => n.id) := by
      intro hh
      exact hk (by rw [List.map_cons]; exact List.mem_cons_of_mem _ hh)
    rw [ih _ hk2]
    exact mapGet_mapSet_ne _ _ _ _ hk1

theorem extract_fold_lookup (l : List CircuitNode) (ds : DisjointSet) (pins : PinMap)
    (gg : Option Nat) (n2m : List (Nat × Nat)) (nc : Nat) (srcs : List CircuitNode)
    (sol : List ℚ) (init : SimulationResult) (node : CircuitNode)
    (hmem : node ∈ l) (hnd : (l.map (fun n => n.id)).Nodup) :
    mapGet (l.foldl (extractStep ds pins gg n2m nc srcs sol) init).componentCurrents node.id =
      some (extractCurrent nc srcs sol
        (netVoltage gg n2m sol (ds.find ((mapGet pins node.id).getD (0, 0)).1))
        (netVoltage gg n2m sol (ds.find ((mapGet pins node.id).getD (0, 0)).2)) node) := by
  induction l generalizing init with
  | nil => cases hmem
  | cons n rest ih =>
    rw [List.map_cons, List.nodup_cons] at hnd
    rcases List.mem_cons.mp hmem with heq | hrest
    · subst heq
      rw [List.foldl_cons, extract_fold_absent _ _ _ _ _ _ _ _ _ _ hnd.1]
      exact mapGet_mapSet_self _ _ _
    · rw [List.foldl_cons]
      exact ih _ hrest hnd.2

/-- Claim C8: a component whose kind is outside the modeled set source,
ground, resistor, led, switch contributes no stamp (the matrix and
right-hand side pass through one iteration of the stamping fold unchanged)
and its reported current is 0; the simulation of the rest of the circuit
proceeds (the result is defined and carries an entry for the component). -/
theorem unmodeled_kind_passthrough :
    (∀ (gg : Option Nat) (n2m : List (Nat × Nat)) (ssi : Nat) (sources : List CircuitNode)
        (pins : PinMap) (ds : DisjointSet) (acc : List (List ℚ) × List ℚ) (node : CircuitNode),
        node.type ∉ (["source", "ground", "resistor", "led", "switch"] : List String) →
        stampNode gg n2m ssi sources pins ds acc node = acc) ∧
    (∀ (data : CircuitData) (node : CircuitNode), node ∈ data.nodes →
        (data.nodes.map (fun n => n.id)).Nodup →
        node.type ∉ (["source", "ground", "resistor", "led", "switch"] : List String) →
        mapGet (runAdvancedSimulation data).componentCurrents node.id = some 0) := by
  constructor
  · intro gg n2m ssi sources pins ds acc node h
    simp only [List.mem_cons, List.mem_singleton, not_or] at h
    obtain ⟨hsrc, hgnd, hres, hled, ⟨hsw, -⟩⟩ := h
    obtain ⟨m0, r0⟩ := acc
    unfold stampNode
    dsimp only
    rw [if_neg (by simp [hres, hled, hsw]), if_neg (by simp [hsrc])]
  · intro data node hmem hnd h
    simp only [List.mem_cons, List.mem_singleton, not_or] at h
    obtain ⟨hsrc, hgnd, hres, hled, hsw⟩ := h
    have hl := extract_fold_lookup data.nodes (systemOf data).ds (systemOf data).pins
      (systemOf data).gg (systemOf data).n2m (systemOf data).netCount (systemOf data).sources
      (solveLinearSystem (buildSystem data).1 (buildSystem data).2) ⟨[], [], [], []⟩ node
      hmem hnd
    have hrun : runAdvancedSimulation data =
        data.nodes.foldl
          (extractStep (systemOf data).ds (systemOf data).pins (systemOf data).gg
            (systemOf data).n2m (systemOf data).netCount (systemOf data).sources
            (solveLinearSystem (buildSystem data).1 (buildSystem data).2)) ⟨[], [], [], []⟩ := rfl
    rw [hrun, hl]
    unfold extractCurrent
    rw [if_neg (by simp [hres, hled, hsw]), if_neg (by simp [hsrc])]

/-- Witness for C8 at the 555 timer mock circuit: the ic component (an
unmodeled kind) reports current exactly 0 while sitting in a graph with a
source, a capacitor, a resistor and a ground. -/
theorem unmodeled_kind_passthrough_witness :
    mapGet (runAdvancedSimulation
        ⟨[⟨"n1", "ic", "555 Timer", 400, 300, none⟩,
          ⟨"n2", "source", "VCC", 400, 100, some "5V"⟩,
          ⟨"n3", "capacitor", "C1", 250, 400, some "10uF"⟩,
          ⟨"n4", "resistor", "R1", 250, 200, some "1k"⟩,
          ⟨"n5", "ground", "GND", 400, 500, none⟩],
         [⟨"e1", "n2", "n1"⟩, ⟨"e2", "n1", "n5"⟩, ⟨"e3", "n4", "n1"⟩]⟩).componentCurrents
      "n1" = some 0 :=
  unmodeled_kind_passthrough.2
    ⟨[⟨"n1", "ic", "555 Timer", 400, 300, none⟩,
      ⟨"n2", "source", "VCC", 400, 100, some "5V"⟩,
      ⟨"n3", "capacitor", "C1", 250, 400, some "10uF"⟩,
      ⟨"n4", "resistor", "R1", 250, 200, some "1k"⟩,
      ⟨"n5", "ground", "GND", 400, 500, none⟩],
     [⟨"e1", "n2", "n1"⟩, ⟨"e2", "n1", "n5"⟩, ⟨"e3", "n4", "n1"⟩]⟩
    ⟨"n1", "ic", "555 Timer", 400, 300, none⟩
    (by decide) (by decide) (by decide)

/-! ## Claim C6: solver totality and the singular-pivot guard -/

theorem elimStep_rhs_length (n : Nat) (AB : List (List ℚ) × List ℚ) (i : Nat) :
    (elimStep n AB i).2.length = AB.2.length := by
  unfold elimStep
  dsimp only
  refine List.foldlRecOn
    (motive := fun (ab : List (List ℚ) × List ℚ) => ab.2.length = AB.2.length)
    _ _ _ (by simp) ?_
  intro ab hab d hd
  simpa using hab

theorem forwardEliminate_rhs_length (A : List (List ℚ)) (B : List ℚ) :
    (forwardEliminate A B).2.length = B.length := by
  unfold forwardEliminate
  refine List.foldlRecOn
    (motive := fun (ab : List (List ℚ) × List ℚ) => ab.2.length = B.length)
    _ _ _ rfl ?_
  intro ab hab d hd
  rw [elimStep_rhs_length]
  exact hab

theorem backStep_length (A : List (List ℚ)) (B : List ℚ) (n : Nat) (x : List ℚ) (k : Nat) :
    (backStep A B n x k).length = x.length := by
  unfold backStep
  dsimp only
  split <;> simp

theorem backStep_getD_ne (A : List (List ℚ)) (B : List ℚ) (n : Nat) (x : List ℚ)
    (k i : Nat) (hi : i ≠ n - 1 - k) :
    (backStep A B n x k).getD i 0 = x.getD i 0 := by
  unfold backStep
  dsimp only
  split <;>
    rw [List.getD_eq_getElem?_getD, List.getElem?_set_ne (by omega),
      ← List.getD_eq_getElem?_getD]

theorem backStep_getD_small (A : List (List ℚ)) (B : List ℚ) (n : Nat) (x : List ℚ)
    (k : Nat) (hlen : x.length = n) (hk : k < n)
    (hsmall : |getE A (n - 1 - k) (n - 1 - k)| < 1 / 10000000000) :
    (backStep A B n x k).getD (n - 1 - k) 0 = 0 := by
  unfold backStep
  dsimp only
  rw [if_pos hsmall, List.getD_eq_getElem?_getD, List.getElem?_set_self (by omega),
    Option.getD_some]

theorem backSub_partial_length (A : List (List ℚ)) (B : List ℚ) (n : Nat) (k : Nat) :
    ((List.range k).foldl (backStep A B n) (List.replicate n 0)).length = n := by
  refine List.foldlRecOn (motive := fun (x : List ℚ) => x.length = n) _ _ _ (by simp) ?_
  intro x hx d hd
  rw [backStep_length]
  exact hx

theorem backSub_partial_zero (A : List (List ℚ)) (B : List ℚ) (n : Nat) :
    ∀ k, k ≤ n → ∀ i, n - k ≤ i → i < n →
      |getE A i i| < 1 / 10000000000 →
      ((List.range k).foldl (backStep A B n) (List.replicate n 0)).getD i 0 = 0 := by
  intro k
  induction k with
  | zero =>
    intro _ i h1 h2 _
    omega
  | succ k ih =>
    intro hk i h1 h2 hsmall
    rw [List.range_succ, List.foldl_append, List.foldl_cons, List.foldl_nil]
    have hxlen := backSub_partial_length A B n k
    by_cases hi : i = n - 1 - k
    · subst hi
      exact backStep_getD_small A B n _ k hxlen (by omega) hsmall
    · rw [backStep_getD_ne A B n _ k i hi]
      exact ih (by omega) i (by omega) h2 hsmall

/-- Claim C6: the Gaussian solver is a total function returning a vector of
the expected length for every input (so no exception can escape it; the
caller's catch branch producing an all-zero vector is dead code), and every
unknown whose pivot magnitude after forward elimination is below 1e-10 is
assigned exactly 0 by back substitution instead of being divided by the
near-zero pivot. -/
theorem solver_total_and_singular_guard (A : List (List ℚ)) (B : List ℚ) :
    (solveLinearSystem A B).length = B.length ∧
    ∀ i, i < B.length →
      |getE (forwardEliminate A B).1 i i| < 1 / 10000000000 →
      (solveLinearSystem A B).getD i 0 = 0 := by
  have hlen := forwardEliminate_rhs_length A B
  constructor
  · unfold solveLinearSystem backSubstitute
    dsimp only
    rw [backSub_partial_length, hlen]
  · intro i hi hsmall
    unfold solveLinearSystem backSubstitute
    dsimp only
    exact backSub_partial_zero (forwardEliminate A B).1 (forwardEliminate A B).2
      (forwardEliminate A B).2.length (forwardEliminate A B).2.length le_rfl i
      (by omega) (by omega) hsmall

/-- Witness for C6 on the singular 1 by 1 system with matrix 0: the pivot
after elimination is 0, below the threshold, and the solver returns the
zero vector of length 1. -/
theorem solver_singular_guard_witness :
    (0 < ([(0 : ℚ)] : List ℚ).length ∧
      |getE (forwardEliminate [[(0 : ℚ)]] [(0 : ℚ)]).1 0 0| < 1 / 10000000000) ∧
    (solveLinearSystem [[(0 : ℚ)]] [(0 : ℚ)]).getD 0 0 = 0 :=
  ⟨⟨by norm_num, by with_unfolding_all decide⟩,
   (solver_total_and_singular_guard [[(0 : ℚ)]] [(0 : ℚ)]).2 0 (by norm_num)
     (by with_unfolding_all decide)⟩

/-! ## Claim C10: the assembled MNA matrix is square and symmetric -/

/-- Squareness of a matrix of a given size. -/
def Square (sz : Nat) (M : List (List ℚ)) : Prop :=
  M.length = sz ∧ ∀ row ∈ M, row.length = sz

/-- Symmetry of a matrix read through getE. -/
def Sym (M : List (List ℚ)) : Prop :=
  ∀ a b, getE M a b = getE M b a

theorem square_setE {sz : Nat} {M : List (List ℚ)} (h : Square sz M) (i j : Nat) (v : ℚ) :
    Square sz (setE M i j v) := by
  obtain ⟨hlen, hrows⟩ := h
  constructor
  · unfold setE
    simpa using hlen
  · intro row hrow
    unfold setE at hrow
    by_cases hi : i < M.length
    · rcases List.mem_or_eq_of_mem_set hrow with hm | he
      · exact hrows row hm
      · rw [he, List.length_set]
        exact hrows _ (by rw [List.getD_eq_getElem _ _ hi]; exact List.getElem_mem hi)
    · rw [List.set_eq_of_length_le (by omega)] at hrow
      exact hrows row hrow

theorem getE_setE {sz : Nat} {M : List (List ℚ)} (h : Square sz M) (i j : Nat) (v : ℚ)
    (a b : Nat) :
    getE (setE M i j v) a b =
      if a = i ∧ b = j ∧ i < sz ∧ j < sz then v else getE M a b := by
  obtain ⟨hlen, hrows⟩ := h
  unfold getE setE
  by_cases hi : i < M.length
  · have hrl : (M.getD i []).length = sz := by
      rw [List.getD_eq_getElem _ _ hi]
      exact hrows _ (List.getElem_mem hi)
    by_cases ha : a = i
    · subst ha
      rw [List.getD_eq_getElem?_getD (M.set a _) a, List.getElem?_set_self (by simpa using hi),
        Option.getD_some]
      by_cases hb : b = j
      · subst hb
        by_cases hj : b < sz
        · rw [List.getD_eq_getElem?_getD _ b, List.getElem?_set_self (by omega),
            Option.getD_some, if_pos ⟨rfl, rfl, by omega, hj⟩]
        · rw [List.set_eq_of_length_le (by omega),
            if_neg (fun hc => hj hc.2.2.2)]
      · rw [List.getD_eq_getElem?_getD _ b, List.getElem?_set_ne (fun hh => hb hh.symm),
          ← List.getD_eq_getElem?_getD, if_neg (fun hc => hb hc.2.1)]
    · rw [List.getD_eq_getElem?_getD (M.set i _) a, List.getElem?_set_ne (fun hh => ha hh.symm),
        ← List.getD_eq_getElem?_getD, if_neg (fun hc => ha hc.1)]
  · rw [List.set_eq_of_length_le (by omega),
      if_neg (fun hc => absurd hc.2.2.1 (by omega))]

theorem square_addE {sz : Nat} {M : List (List ℚ)} (h : Square sz M) (i j : Nat) (v : ℚ) :
    Square sz (addE M i j v) :=
  square_setE h i j _

theorem getE_addE {sz : Nat} {M : List (List ℚ)} (h : Square sz M) (i j : Nat) (v : ℚ)
    (a b : Nat) :
    getE (addE M i j v) a b =
      if a = i ∧ b = j ∧ i < sz ∧ j < sz then getE M a b + v else getE M a b := by
  unfold addE
  rw [getE_setE h]
  split_ifs with hc
  · obtain ⟨ha, hb, -, -⟩ := hc
    subst ha
    subst hb
    rfl
  · rfl

theorem sym_addE_diag {sz : Nat} {M : List (List ℚ)} (hsq : Square sz M) (hsym : Sym M)
    (i : Nat) (v : ℚ) : Sym (addE M i i v) := by
  intro a b
  rw [getE_addE hsq, getE_addE hsq]
  by_cases hab : a = i ∧ b = i
  · obtain ⟨ha, hb⟩ := hab
    subst ha
    subst hb
    rfl
  · rw [if_neg (fun hc => hab ⟨hc.1, hc.2.1⟩), if_neg (fun hc => hab ⟨hc.2.1, hc.1⟩)]
    exact hsym a b

theorem sym_addE_pair {sz : Nat} {M : List (List ℚ)} (hsq : Square sz M) (hsym : Sym M)
    (i j : Nat) (v : ℚ) : Sym (addE (addE M i j v) j i v) := by
  have hsq1 : Square sz (addE M i j v) := square_addE hsq i j v
  intro a b
  rw [getE_addE hsq1 j i v a b, getE_addE hsq1 j i v b a, getE_addE hsq i j v a b,
    getE_addE hsq i j v b a]
  split_ifs <;> (try rw [hsym a b]) <;> (try ring_nf) <;> tauto

theorem square_sym_stampResistive {sz : Nat} {M : List (List ℚ)} (hsq : Square sz M)
    (hsym : Sym M) (g : ℚ) (o1 o2 : Option Nat) :
    Square sz (stampResistive g o1 o2 M) ∧ Sym (stampResistive g o1 o2 M) := by
  cases o1 with
  | none =>
    cases o2 with
    | none => exact ⟨hsq, hsym⟩
    | some i2 => exact ⟨square_addE hsq i2 i2 g, sym_addE_diag hsq hsym i2 g⟩
  | some i1 =>
    cases o2 with
    | none => exact ⟨square_addE hsq i1 i1 g, sym_addE_diag hsq hsym i1 g⟩
    | some i2 =>
      have h1 : Square sz (addE M i1 i1 g) := square_addE hsq i1 i1 g
      have s1 : Sym (addE M i1 i1 g) := sym_addE_diag hsq hsym i1 g
      have h2 : Square sz (addE (addE M i1 i1 g) i2 i2 g) := square_addE h1 i2 i2 g
      have s2 : Sym (addE (addE M i1 i1 g) i2 i2 g) := sym_addE_diag h1 s1 i2 g
      exact ⟨square_addE (square_addE h2 i1 i2 (-g)) i2 i1 (-g),
        sym_addE_pair h2 s2 i1 i2 (-g)⟩

theorem square_sym_stampSource {sz : Nat} {M : List (List ℚ)} (hsq : Square sz M)
    (hsym : Sym M) (sIdx : Nat) (o1 o2 : Option Nat) :
    Square sz (stampSource sIdx o1 o2 M) ∧ Sym (stampSource sIdx o1 o2 M) := by
  have step : ∀ (N : List (List ℚ)), Square sz N → Sym N → ∀ (i : Nat) (v : ℚ),
      Square sz (addE (addE N i sIdx v) sIdx i v) ∧
        Sym (addE (addE N i sIdx v) sIdx i v) := by
    intro N hN sN i v
    exact ⟨square_addE (square_addE hN i sIdx v) sIdx i v, sym_addE_pair hN sN i sIdx v⟩
  cases o1 with
  | none =>
    cases o2 with
    | none => exact ⟨hsq, hsym⟩
    | some i2 => exact step M hsq hsym i2 (-1)
  | some i1 =>
    cases o2 with
    | none => exact step M hsq hsym i1 1
    | some i2 =>
      obtain ⟨h1, s1⟩ := step M hsq hsym i1 1
      exact step _ h1 s1 i2 (-1)

theorem square_sym_stampNode {sz : Nat} (gg : Option Nat) (n2m : List (Nat × Nat))
    (ssi : Nat) (sources : List CircuitNode) (pins : PinMap) (ds : DisjointSet)
    (acc : List (List ℚ) × List ℚ) (node : CircuitNode)
    (hsq : Square sz acc.1) (hsym : Sym acc.1) :
    Square sz (stampNode gg n2m ssi sources pins ds acc node).1 ∧
      Sym (stampNode gg n2m ssi sources pins ds acc node).1 := by
  obtain ⟨m, r⟩ := acc
  unfold stampNode
  dsimp only at hsq hsym ⊢
  by_cases h1 : node.type = "resistor" ∨ node.type = "led" ∨ node.type = "switch"
  · rw [if_pos h1]
    exact square_sym_stampResistive hsq hsym _ _ _
  · rw [if_neg h1]
    by_cases h2 : node.type = "source"
    · rw [if_pos h2]
      exact square_sym_stampSource hsq hsym _ _ _
    · rw [if_neg h2]
      exact ⟨hsq, hsym⟩

theorem getE_replicate_zero (n : Nat) (a b : Nat) :
    getE (List.replicate n (List.replicate n (0 : ℚ))) a b = 0 := by
  unfold getE
  rw [List.getD_eq_getElem?_getD (List.replicate n (List.replicate n (0 : ℚ))) a,
    List.getElem?_replicate]
  split_ifs <;> simp [List.getD_eq_getElem?_getD, List.getElem?_replicate]
  split_ifs <;> rfl

theorem buildNetMap_count (gg : Option Nat) :
    ∀ (l : List Nat) (acc : List (Nat × Nat) × Nat),
      (l.foldl
        (fun acc netId =>
          if some netId ≠ gg then (acc.1 ++ [(netId, acc.2)], acc.2 + 1) else acc)
        acc).2 = acc.2 + (l.filter (fun r => some r ≠ gg)).length := by
  intro l
  induction l with
  | nil => intro acc; simp
  | cons x rest ih =>
    intro acc
    rw [List.foldl_cons, List.filter_cons]
    by_cases hx : some x ≠ gg
    · rw [if_pos hx, ih, if_pos (by simpa using hx)]
      simp only [List.length_cons]
      omega
    · rw [if_neg hx, ih, if_neg (by simpa using hx)]

/-- Claim C10: the assembled MNA matrix is square, its dimension is the
number of distinct non-ground nets touched by any component pin plus the
number of voltage-source components, and after all component stamps it is
symmetric. -/
theorem mna_matrix_square_symmetric (data : CircuitData) :
    (buildSystem data).1.length =
      ((uniqueNetIds data.nodes (systemOf data).pins (systemOf data).ds).filter
        (fun r => some r ≠ (systemOf data).gg)).length +
        (data.nodes.filter (fun n => n.type = "source")).length ∧
    (∀ row ∈ (buildSystem data).1, row.length = (buildSystem data).1.length) ∧
    (∀ i j, getE (buildSystem data).1 i j = getE (buildSystem data).1 j i) := by
  have hcount : (systemOf data).netCount =
      ((uniqueNetIds data.nodes (systemOf data).pins (systemOf data).ds).filter
        (fun r => some r ≠ (systemOf data).gg)).length := by
    have h := buildNetMap_count (systemOf data).gg
      (uniqueNetIds data.nodes (systemOf data).pins (systemOf data).ds) ([], 0)
    exact h.trans (Nat.zero_add _)
  have hmain : Square ((systemOf data).netCount + (systemOf data).sources.length)
      (buildSystem data).1 ∧ Sym (buildSystem data).1 := by
    unfold buildSystem
    dsimp only
    refine List.foldlRecOn
      (motive := fun (ab : List (List ℚ) × List ℚ) =>
        Square ((systemOf data).netCount + (systemOf data).sources.length) ab.1 ∧ Sym ab.1)
      _ _ _ ⟨⟨by simp, fun row hr => by rw [List.eq_of_mem_replicate hr]; simp⟩,
        fun a b => by rw [getE_replicate_zero, getE_replicate_zero]⟩ ?_
    intro ab hab n hn
    exact square_sym_stampNode _ _ _ _ _ _ ab n hab.1 hab.2
  have hsrcs : (systemOf data).sources = data.nodes.filter (fun n => n.type = "source") := rfl
  refine ⟨?_, ?_, hmain.2⟩
  · rw [show (buildSystem data).1.length =
      (systemOf data).netCount + (systemOf data).sources.length from hmain.1.1,
      hcount, hsrcs]
  · intro row hr
    rw [hmain.1.1]
    exact hmain.1.2 row hr

/-- Witness for C10 on the led series circuit: the first assembled row is a
member of the matrix and has the matrix's own length, and the entries at
(0, 3) and (3, 0) agree. -/
theorem mna_matrix_square_symmetric_witness :
    ([(1 : ℚ)/330, 0, -1/330, 1] ∈ (buildSystem ledSeriesCircuit).1 ∧
      ([(1 : ℚ)/330, 0, -1/330, 1] : List ℚ).length =
        (buildSystem ledSeriesCircuit).1.length) ∧
    getE (buildSystem ledSeriesCircuit).1 0 3 = getE (buildSystem ledSeriesCircuit).1 3 0 :=
  ⟨⟨by with_unfolding_all decide,
    (mna_matrix_square_symmetric ledSeriesCircuit).2.1 _ (by with_unfolding_all decide)⟩,
   (mna_matrix_square_symmetric ledSeriesCircuit).2.2 0 3⟩

/-! ## Claim C3: a voltage source's p2 pin is never merged with anything

Net resolution only ever unions wire-selected pins (a source endpoint's p1
or p2, where p2 is chosen only for non-source kinds, and a target's p1)
and ground p1 representatives, so the element allocated as a source's p2 is
never an argument of a union; the development tracks the invariant that no
parent pointer ever reaches it.  -/

/-- Invariant: the element t is a union-find root and no other element
points at it. -/
def Avoids (P : List Nat) (t : Nat) : Prop :=
  P.getD t t = t ∧ ∀ a, a ≠ t → P.getD a a ≠ t

theorem findAux_ne_of_avoids {P : List Nat} {t : Nat} (h : Avoids P t) :
    ∀ (fuel : Nat) (a : Nat), a ≠ t → DisjointSet.findAux P fuel a ≠ t := by
  intro fuel
  induction fuel with
  | zero => intro a ha; exact ha
  | succ f ih =>
    intro a ha
    unfold DisjointSet.findAux
    dsimp only
    split_ifs with hp
    · exact ha
    · exact ih _ (h.2 a ha)

theorem findAux_root {P : List Nat} {a : Nat} (h : P.getD a a = a) :
    ∀ fuel, DisjointSet.findAux P fuel a = a := by
  intro fuel
  cases fuel with
  | zero => rfl
  | succ f =>
    unfold DisjointSet.findAux
    dsimp only
    rw [if_pos h]

theorem find_ne_of_avoids {ds : DisjointSet} {t : Nat} (h : Avoids ds.parent t)
    (a : Nat) (ha : a ≠ t) : ds.find a ≠ t :=
  findAux_ne_of_avoids h _ a ha

theorem find_self_of_avoids {ds : DisjointSet} {t : Nat} (h : Avoids ds.parent t) :
    ds.find t = t :=
  findAux_root h.1 _

theorem avoids_union {ds : DisjointSet} {t : Nat} (h : Avoids ds.parent t)
    (a b : Nat) (ha : a ≠ t) (hb : b ≠ t) : Avoids (ds.union a b).parent t := by
  unfold DisjointSet.union
  dsimp only
  split_ifs with hne
  · have hra : ds.find a ≠ t := find_ne_of_avoids h a ha
    have hrb : ds.find b ≠ t := find_ne_of_avoids h b hb
    constructor
    · rw [List.getD_eq_getElem?_getD, List.getElem?_set_ne (fun hh => hra hh),
        ← List.getD_eq_getElem?_getD]
      exact h.1
    · intro x hx
      rw [List.getD_eq_getElem?_getD, List.getElem?_set]
      split_ifs with h1 h2
      · simpa using hrb
      · simpa using hx
      · rw [← List.getD_eq_getElem?_getD]
        exact h.2 x hx
  · exact h

theorem set_append_pair (P : List Nat) (x y v : Nat) :
    (P ++ [x, y]).set P.length v = P ++ [v, y] := by
  induction P with
  | nil => rfl
  | cons p rest ih => simp

theorem getD_append_fst (P : List Nat) (x y d : Nat) :
    (P ++ [x, y]).getD P.length d = x := by
  rw [List.getD_eq_getElem?_getD, List.getElem?_append_right le_rfl]
  simp

theorem getD_append_snd (P : List Nat) (x y d : Nat) :
    (P ++ [x, y]).getD (P.length + 1) d = y := by
  rw [List.getD_eq_getElem?_getD, List.getElem?_append_right (by omega)]
  have : P.length + 1 - P.length = 1 := by omega
  rw [this]
  simp

/-- One pin-allocation step in closed form: the parent array grows by the
two fresh self-rooted pins, shorted (the first redirected to the second)
for a ground component, and the pin map records the pair. -/
theorem initStep_eq (P : List Nat) (m : PinMap) (node : CircuitNode) :
    initStep (⟨P⟩, m) node =
      (⟨P ++ (if node.type = "ground" then [P.length + 1, P.length + 1]
              else [P.length, P.length + 1])⟩,
       mapSet m node.id (P.length, P.length + 1)) := by
  unfold initStep DisjointSet.makeSet
  dsimp only
  have hlen1 : (P ++ [P.length]).length = P.length + 1 := by simp
  rw [hlen1]
  have happ2 : P ++ [P.length] ++ [P.length + 1] = P ++ [P.length, P.length + 1] := by simp
  rw [happ2]
  by_cases hg : node.type = "ground"
  · rw [if_pos hg, if_pos hg]
    unfold DisjointSet.union DisjointSet.find
    dsimp only
    rw [findAux_root (getD_append_fst P P.length (P.length + 1) P.length),
      findAux_root (getD_append_snd P P.length (P.length + 1) (P.length + 1))]
    rw [if_pos (by omega)]
    rw [set_append_pair]
  · rw [if_neg hg, if_neg hg]

/-- Closed form of the pin-allocation parent array: two entries per
component, self-rooted, with a ground's first pin redirected to its
second. -/
def pinBlocks (k : Nat) : List CircuitNode → List Nat
  | [] => []
  | n :: rest =>
    (if n.type = "ground" then [k + 1, k + 1] else [k, k + 1]) ++ pinBlocks (k + 2) rest

theorem pinBlocks_cons (k : Nat) (n : CircuitNode) (rest : List CircuitNode) :
    pinBlocks k (n :: rest) =
      (if n.type = "ground" then [k + 1, k + 1] else [k, k + 1]) ++ pinBlocks (k + 2) rest :=
  rfl

theorem initPins_go_parent :
    ∀ (l : List CircuitNode) (P : List Nat) (m : PinMap),
      (l.foldl initStep (⟨P⟩, m)).1.parent = P ++ pinBlocks P.length l := by
  intro l
  induction l with
  | nil => intro P m; simp [pinBlocks]
  | cons n rest ih =>
    intro P m
    rw [List.foldl_cons, initStep_eq, ih, pinBlocks_cons]
    have hl : (P ++ (if n.type = "ground" then [P.length + 1, P.length + 1]
        else [P.length, P.length + 1])).length = P.length + 2 := by
      split_ifs <;> simp
    rw [hl, List.append_assoc]

theorem avoids_append_two (P : List Nat) (t x : Nat) (hA : Avoids P t)
    (htL : t ≠ P.length) (hxv : x ≠ t) : Avoids (P ++ [x, P.length + 1]) t := by
  constructor
  · by_cases h1 : t < P.length
    · rw [List.getD_eq_getElem?_getD, List.getElem?_append_left h1,
        ← List.getD_eq_getElem?_getD]
      exact hA.1
    · by_cases h2 : t = P.length + 1
      · rw [h2, getD_append_snd]
      · rw [List.getD_eq_getElem?_getD, List.getElem?_append_right (by omega),
          List.getElem?_eq_none (by simp; omega)]
        rfl
  · intro a ha
    by_cases h1 : a < P.length
    · rw [List.getD_eq_getElem?_getD, List.getElem?_append_left h1,
        ← List.getD_eq_getElem?_getD]
      exact hA.2 a ha
    · by_cases h2 : a = P.length
      · rw [h2, getD_append_fst]
        exact hxv
      · by_cases h3 : a = P.length + 1
        · rw [h3, getD_append_snd]
          omega
        · rw [List.getD_eq_getElem?_getD, List.getElem?_append_right (by omega),
            List.getElem?_eq_none (by simp; omega)]
          exact ha

theorem avoids_pinBlocks (t : Nat) (ht : t % 2 = 1) :
    ∀ (l : List CircuitNode) (P : List Nat), P.length % 2 = 0 →
      Avoids P t →
      (∀ j (hj : j < l.length), (l.get ⟨j, hj⟩).type = "ground" →
        P.length + 2 * j + 1 ≠ t) →
      Avoids (P ++ pinBlocks P.length l) t := by
  intro l
  induction l with
  | nil =>
    intro P hPe hA hg
    simpa [pinBlocks] using hA
  | cons n rest ih =>
    intro P hPe hA hg
    rw [pinBlocks_cons, ← List.append_assoc]
    have hblk : Avoids (P ++ (if n.type = "ground" then [P.length + 1, P.length + 1]
        else [P.length, P.length + 1])) t := by
      by_cases hgr : n.type = "ground"
      · rw [if_pos hgr]
        exact avoids_append_two P t (P.length + 1) hA (by omega)
          (by simpa using hg 0 (by simp) (by simpa using hgr))
      · rw [if_neg hgr]
        exact avoids_append_two P t P.length hA (by omega) (by omega)
    have hl : (P ++ (if n.type = "ground" then [P.length + 1, P.length + 1]
        else [P.length, P.length + 1])).length = P.length + 2 := by
      split_ifs <;> simp
    have hrest := ih (P ++ (if n.type = "ground" then [P.length + 1, P.length + 1]
        else [P.length, P.length + 1])) (by omega) hblk ?_
    · rw [hl] at hrest
      exact hrest
    · intro j hj hgr
      rw [hl]
      have := hg (j + 1) (by simpa using Nat.succ_lt_succ hj)
        (by rwa [List.get_cons_succ])
      omega

theorem initPins_go_absent :
    ∀ (l : List CircuitNode) (acc : DisjointSet × PinMap) (k : String),
      k ∉ l.map (fun n => n.id) →
      mapGet ((l.foldl initStep acc).2) k = mapGet acc.2 k := by
  intro l
  induction l with
  | nil => intro acc k _; rfl
  | cons n rest ih =>
    intro acc k hk
    have hk1 : k ≠ n.id := fun hh =>
      hk (by rw [List.map_cons, hh]; exact List.mem_cons_self _ _)
    have hk2 : k ∉ rest.map (fun n => n.id) := fun hh =>
      hk (by rw [List.map_cons]; exact List.mem_cons_of_mem _ hh)
    rw [List.foldl_cons, ih _ _ hk2]
    exact mapGet_mapSet_ne _ _ _ _ hk1

theorem initPins_go_pins :
    ∀ (l : List CircuitNode) (P : List Nat) (m : PinMap) (j : Nat) (hj : j < l.length),
      (l.map (fun n => n.id)).Nodup →
      (∀ e ∈ m, e.1 ∉ l.map (fun n => n.id)) →
      mapGet ((l.foldl initStep (⟨P⟩, m)).2) (l.get ⟨j, hj⟩).id =
        some (P.length + 2 * j, P.length + 2 * j + 1) := by
  intro l
  induction l with
  | nil => intro P m j hj; exact absurd hj (by simp)
  | cons n rest ih =>
    intro P m j hj hnd hm
    rw [List.map_cons, List.nodup_cons] at hnd
    rw [List.foldl_cons, initStep_eq]
    cases j with
    | zero =>
      rw [show ((n :: rest).get ⟨0, hj⟩) = n from rfl]
      rw [initPins_go_absent rest _ n.id hnd.1, mapGet_mapSet_self]
      simp
    | succ j' =>
      rw [List.get_cons_succ]
      have hl : (P ++ (if n.type = "ground" then [P.length + 1, P.length + 1]
          else [P.length, P.length + 1])).length = P.length + 2 := by
        split_ifs <;> simp
      have hm' : ∀ e ∈ mapSet m n.id (P.length, P.length + 1),
          e.1 ∉ rest.map (fun x => x.id) := by
        intro e he
        rcases mem_mapSet _ _ _ _ he with hkv | hmm
        · rw [hkv]
          exact hnd.1
        · intro hh
          exact hm e hmm (by rw [List.map_cons]; exact List.mem_cons_of_mem _ hh)
      have h2 := ih (P ++ (if n.type = "ground" then [P.length + 1, P.length + 1]
          else [P.length, P.length + 1])) (mapSet m n.id (P.length, P.length + 1)) j'
        (by simpa using Nat.lt_of_succ_lt_succ hj) hnd.2 hm'
      rw [hl] at h2
      rw [show P.length + 2 * (j' + 1) = P.length + 2 + 2 * j' from by ring,
        show P.length + 2 + 2 * j' + 1 = P.length + 2 + 2 * j' + 1 from rfl]
      exact h2

/-- Safety of a pin map for the protected element t: no component's p1 is
t, and no non-source component's p2 is t. -/
def PinsSafe (pins : PinMap) (nodes : List CircuitNode) (t : Nat) : Prop :=
  ∀ nd ∈ nodes, ∀ pa, mapGet pins nd.id = some pa →
    pa.1 ≠ t ∧ (nd.type ≠ "source" → pa.2 ≠ t)

theorem avoids_wireStep {nodes : List CircuitNode} {pins : PinMap} {ds : DisjointSet}
    {t : Nat} (conn : CircuitConnection) (h : Avoids ds.parent t)
    (hp : PinsSafe pins nodes t) : Avoids (wireStep nodes pins ds conn).parent t := by
  unfold wireStep
  split
  · rename_i srcNode tgtNode hfs hft
    split
    · rename_i srcPins tgtPins hps hpt
      have hsrc := hp srcNode (List.mem_of_find?_eq_some hfs) srcPins hps
      have htgt := hp tgtNode (List.mem_of_find?_eq_some hft) tgtPins hpt
      dsimp only
      refine avoids_union h _ _ ?_ htgt.1
      by_cases h1 : srcNode.type = "source"
      · rw [if_pos h1]
        exact hsrc.1
      · rw [if_neg h1]
        by_cases h2 : srcNode.type ≠ "ground"
        · rw [if_pos h2]
          exact hsrc.2 h1
        · rw [if_neg h2]
          exact hsrc.1
    · exact h
  · exact h

theorem avoids_resolveGround {nodes : List CircuitNode} {pins : PinMap} {ds : DisjointSet}
    {t : Nat} (h : Avoids ds.parent t) (hp : PinsSafe pins nodes t) (ht0 : t ≠ 0) :
    Avoids (resolveGround nodes pins ds).2.parent t := by
  have hpin : ∀ g : CircuitNode, g ∈ nodes → g.type = "ground" →
      ((mapGet pins g.id).getD (0, 0)).1 ≠ t := by
    intro g hgm hgt
    cases hmg : mapGet pins g.id with
    | none => simpa [hmg] using ht0.symm
    | some pa =>
      simpa using (hp g hgm pa hmg).1
  unfold resolveGround
  dsimp only
  split
  · split <;> exact h
  · rename_i g0 rest hfil
    have hg0 : g0 ∈ nodes.filter (fun n => n.type = "ground") := by
      rw [hfil]
      exact List.mem_cons_self _ _
    have hg0n : g0 ∈ nodes := List.mem_of_mem_filter hg0
    have hg0t : g0.type = "ground" := by simpa using List.of_mem_filter hg0
    have hg0net : ds.find ((mapGet pins g0.id).getD (0, 0)).1 ≠ t :=
      find_ne_of_avoids h _ (hpin g0 hg0n hg0t)
    refine List.foldlRecOn
      (motive := fun (d : DisjointSet) => Avoids d.parent t) _ _ _ h ?_
    intro d hd gi hgi
    have hgim : gi ∈ nodes.filter (fun n => n.type = "ground") := by
      rw [hfil]
      exact List.mem_cons_of_mem _ hgi
    have hgit : gi.type = "ground" := by simpa using List.of_mem_filter hgim
    exact avoids_union hd _ _ hg0net
      (find_ne_of_avoids hd _ (hpin gi (List.mem_of_mem_filter hgim) hgit))

/-- Claim C3: for every well-formed input graph (distinct component ids),
net resolution never unions any other pin with a voltage source's p2 pin:
the source's pins are allocated as 2i and 2i+1 at position i, and after
wire merging and ground merging no pin other than 2i+1 itself resolves to
the net of 2i+1 - that net stays a singleton. -/
theorem source_negative_pin_isolated (data : CircuitData) (i : Nat)
    (hi : i < data.nodes.length)
    (hnd : (data.nodes.map (fun n => n.id)).Nodup)
    (hsrc : (data.nodes.get ⟨i, hi⟩).type = "source") :
    mapGet (resolveNets data).2.1 (data.nodes.get ⟨i, hi⟩).id = some (2 * i, 2 * i + 1) ∧
    ∀ q, q ≠ 2 * i + 1 →
      (resolveNets data).1.find q ≠ (resolveNets data).1.find (2 * i + 1) := by
  have hpinget : ∀ (j : Nat) (hj : j < data.nodes.length),
      mapGet (initPins data.nodes).2 (data.nodes.get ⟨j, hj⟩).id =
        some (2 * j, 2 * j + 1) := by
    intro j hj
    have h := initPins_go_pins data.nodes [] [] j hj hnd (by intro e he; cases he)
    simpa using h
  have hpar : (initPins data.nodes).1.parent = pinBlocks 0 data.nodes := by
    have h := initPins_go_parent data.nodes [] []
    simpa using h
  have hA0 : Avoids (initPins data.nodes).1.parent (2 * i + 1) := by
    rw [hpar]
    have h := avoids_pinBlocks (2 * i + 1) (by omega) data.nodes [] (by simp)
      ⟨by simp [List.getD], fun a ha => by simp [List.getD]; exact ha⟩ ?_
    · simpa using h
    · intro j hj hgr heq
      rw [show ([] : List Nat).length = 0 from rfl] at heq
      have hji : j = i := by omega
      subst hji
      have h1 : (data.nodes.get ⟨j, hj⟩).type = "source" := hsrc
      exact absurd (h1.symm.trans hgr) (by decide)
  have hps : PinsSafe (initPins data.nodes).2 data.nodes (2 * i + 1) := by
    intro nd hmem pa hget
    obtain ⟨⟨j, hj⟩, hgetj⟩ := List.mem_iff_get.mp hmem
    have hj2 := hpinget j hj
    rw [hgetj, hget] at hj2
    have hpa := Option.some.inj hj2
    constructor
    · rw [hpa]
      omega
    · intro hnsrc
      rw [hpa]
      dsimp only
      intro heq
      have hji : j = i := by omega
      subst hji
      have h1 : (data.nodes.get ⟨j, hj⟩).type = "source" := hsrc
      rw [hgetj] at h1
      exact hnsrc h1
  have hA1 : Avoids ((data.connections.foldl
      (wireStep data.nodes (initPins data.nodes).2) (initPins data.nodes).1)).parent
      (2 * i + 1) := by
    refine List.foldlRecOn
      (motive := fun (d : DisjointSet) => Avoids d.parent (2 * i + 1)) _ _ _ hA0 ?_
    intro d hd c hc
    exact avoids_wireStep c hd hps
  have hA2 : Avoids (resolveNets data).1.parent (2 * i + 1) :=
    avoids_resolveGround hA1 hps (by omega)
  refine ⟨hpinget i hi, ?_⟩
  intro q hq hEq
  have h1 : (resolveNets data).1.find q ≠ 2 * i + 1 := find_ne_of_avoids hA2 q hq
  have h2 : (resolveNets data).1.find (2 * i + 1) = 2 * i + 1 := find_self_of_avoids hA2
  rw [h2] at hEq
  exact h1 hEq

/-- Witness for C3 on the led series circuit: the source n1 at position 0
has pins 0 and 1, and pin 2 (the resistor's p1) does not resolve to pin 1's
net. -/
theorem source_negative_pin_isolated_witness :
    mapGet (resolveNets ledSeriesCircuit).2.1 "n1" = some (0, 1) ∧
      ((resolveNets ledSeriesCircuit).1.find 2 =
        (resolveNets ledSeriesCircuit).1.find 1 → False) :=
  ⟨(source_negative_pin_isolated ledSeriesCircuit 0 (by decide) (by decide) (by decide)).1,
   fun hEq =>
    (source_negative_pin_isolated ledSeriesCircuit 0 (by decide) (by decide) (by decide)).2
      2 (by decide) hEq⟩

end CircuitSim
